import Mathlib

/-!
# Request tracing server (`golang/trace_http_requests_using_context`)

A shallow embedding of the `server` package: the response observer
`statusWriter`, the two middlewares, the router construction and the business
handlers, followed by the properties established about them.

Conventions of the embedding

* Go objects with hidden state are modelled by state passing.  An
  `http.ResponseWriter` is a state of some type `σ` together with the
  dictionary of its methods (`http.ResponseWriter σ`); nothing is assumed about
  what the methods do.
* A Go `int` is an `Int` in the range of a 64-bit word; the one place where
  the package computes with `int`s, the addition in `statusWriter.Write`,
  wraps around as Go's does (`wrapInt`).
* A Go `error` is an `Option String` (`none` is `nil`), a `[]byte` a list of
  bytes, a Go `string` a `String` (valid UTF-8).
* Whatever lies outside the package and outside the response writer (clock,
  random source, logger, JSON decoder, borg registry) is a parameter, the
  structure `Runtime`.
-/

namespace Server

/-! ## The response sink -/

/-- A byte slice. -/
abbrev Bytes := List UInt8

/-- A Go `error` value: `none` is `nil`, `some msg` an error with text `msg`. -/
abbrev GoError := Option String

/-- The value of a Go `int` computation whose mathematical result is `x`: the
representative of `x` modulo `2^64` between `-2^63` and `2^63 - 1` (`int` is
taken to be 64 bits wide). -/
def wrapInt (x : Int) : Int :=
  (x + 9223372036854775808) % 18446744073709551616 - 9223372036854775808

/-- The largest `int`, `math.MaxInt64`. -/
def MaxInt : Int := 9223372036854775807

/-- The smallest `int`, `math.MinInt64`. -/
def MinInt : Int := -9223372036854775808

/-- The conversion `[]byte(s)` of a Go string. -/
def bytesOf (s : String) : Bytes := s.toUTF8.data.toList

/-- The method set of `http.ResponseWriter` over a sink state `σ`.
`HeaderSet w k v` stands for `w.Header().Set(k, v)`. -/
structure http.ResponseWriter (σ : Type) where
  HeaderSet : σ → String → String → σ
  WriteHeader : σ → Int → σ
  Write : σ → Bytes → σ × Int × GoError

/-- One method call on a response writer. -/
inductive Call where
  | HeaderSet (key value : String)
  | WriteHeader (status : Int)
  | Write (b : Bytes)
  deriving DecidableEq, Repr

/-- What a call hands back to its caller: `Write` returns `(n, err)`, the
other two methods return nothing. -/
abbrev Reply := Option (Int × GoError)

/-- Perform one call directly on the sink. -/
def http.ResponseWriter.call {σ : Type} (rw : http.ResponseWriter σ) (s : σ) : Call → σ × Reply
  | .HeaderSet k v => (rw.HeaderSet s k v, none)
  | .WriteHeader c => (rw.WriteHeader s c, none)
  | .Write b =>
    let r := rw.Write s b
    (r.1, some r.2)

/-- Perform a sequence of calls directly on the sink, collecting the replies. -/
def http.ResponseWriter.calls {σ : Type} (rw : http.ResponseWriter σ) : σ → List Call → σ × List Reply
  | s, [] => (s, [])
  | s, c :: cs =>
    let r := rw.call s c
    let rest := rw.calls r.1 cs
    (rest.1, r.2 :: rest.2)

/-! ## middleware.go: the response observer -/

/-- The struct `statusWriter`: the embedded `http.ResponseWriter` (its state)
and the two recorded fields. -/
structure statusWriter (σ : Type) where
  ResponseWriter : σ
  status : Int
  length : Int

/-- The composite literal `statusWriter{ResponseWriter: w}`: the other fields
take their zero value. -/
def statusWriter.new {σ : Type} (w : σ) : statusWriter σ :=
  { ResponseWriter := w, status := 0, length := 0 }

/-- The promoted method `Header()` of the embedded writer, used as
`w.Header().Set(k, v)`. -/
def statusWriter.HeaderSet {σ : Type} (rw : http.ResponseWriter σ) (w : statusWriter σ)
    (k v : String) : statusWriter σ :=
  { w with ResponseWriter := rw.HeaderSet w.ResponseWriter k v }

/-- `func (w *statusWriter) WriteHeader(status int)`. -/
def statusWriter.WriteHeader {σ : Type} (rw : http.ResponseWriter σ) (w : statusWriter σ)
    (status : Int) : statusWriter σ :=
  let w := { w with status := status }
  { w with ResponseWriter := rw.WriteHeader w.ResponseWriter status }

/-- The first statement of `Write`: `if w.status == 0 { w.status = 200 }`.
Its result is the observer at the moment the write is forwarded. -/
def statusWriter.Write_entry {σ : Type} (w : statusWriter σ) : statusWriter σ :=
  if w.status = 0 then { w with status := 200 } else w

/-- The rest of `Write`: forward to the embedded writer, add the count it
reports to `length` (`w.length += n`, an `int` addition), return what it
returned. -/
def statusWriter.Write_forward {σ : Type} (rw : http.ResponseWriter σ) (w : statusWriter σ)
    (b : Bytes) : statusWriter σ × Int × GoError :=
  let r := rw.Write w.ResponseWriter b
  let n := r.2.1
  let err := r.2.2
  ({ w with ResponseWriter := r.1, length := wrapInt (w.length + n) }, n, err)

/-- `func (w *statusWriter) Write(b []byte) (int, error)`. -/
def statusWriter.Write {σ : Type} (rw : http.ResponseWriter σ) (w : statusWriter σ)
    (b : Bytes) : statusWriter σ × Int × GoError :=
  statusWriter.Write_forward rw (statusWriter.Write_entry w) b

/-- The method set of `*statusWriter`: it is itself an `http.ResponseWriter`. -/
def statusWriter.methods {σ : Type} (rw : http.ResponseWriter σ) :
    http.ResponseWriter (statusWriter σ) where
  HeaderSet := statusWriter.HeaderSet rw
  WriteHeader := statusWriter.WriteHeader rw
  Write := statusWriter.Write rw

/-! ## Sinks used to evaluate the model on concrete inputs -/

/-- A sink that keeps a log of the calls it receives and answers each `Write`
with the next entry of a script (and with `(len(b), nil)` once the script is
used up). -/
structure Recorder where
  received : List Call
  script : List (Int × GoError)
  deriving DecidableEq, Repr

/-- The methods of the recording sink. -/
def Recorder.methods : http.ResponseWriter Recorder where
  HeaderSet := fun s k v => { s with received := s.received ++ [Call.HeaderSet k v] }
  WriteHeader := fun s c => { s with received := s.received ++ [Call.WriteHeader c] }
  Write := fun s b =>
    match s.script with
    | [] => ({ s with received := s.received ++ [Call.Write b] }, (b.length : Int), none)
    | r :: rest => ({ received := s.received ++ [Call.Write b], script := rest }, r.1, r.2)

/-- The byte counts among a list of replies. -/
def counts : List Reply → List Int
  | [] => []
  | none :: rs => counts rs
  | some r :: rs => r.1 :: counts rs

/-! ## Collaborators outside the package -/

/-- A `context.Context`: the empty root, or a parent extended by one binding. -/
inductive Context where
  | Background
  | WithValue (parent : Context) (key value : String)
  deriving DecidableEq, Repr

/-- The fields of `*http.Request` the package reads.  `Header` lists the header
map in the order a `range` over it visits the keys; `ctx` is what
`r.Context()` returns. -/
structure http.Request where
  Method : String
  RequestURI : String
  Header : List (String × List String)
  Body : String
  ctx : Context
  deriving DecidableEq, Repr

/-- handlers.go: `type PingRequest struct`. -/
structure PingRequest where
  BorgId : String
  Addr : String
  deriving DecidableEq, Repr

/-- handlers.go: `type Response struct`; both fields carry a plain `json`
name tag (`borgid`, `message`), neither has `omitempty`. -/
structure Response where
  BorgId : String
  Message : String
  deriving DecidableEq, Repr

/-- The value `borg.NewBorg(borgId, addr)` builds, identified by its two
arguments. -/
structure Borg where
  BorgId : String
  Addr : String
  deriving DecidableEq, Repr

/-- Everything the package reaches outside itself and outside the response
writer, over a process state `ε` (clock, random source, log sink, borg
registry).  Nothing is assumed about these operations.

* `Now` is `time.Now()`, `Since` is `time.Since(start)` (a duration),
  `DurationString` is the `String` method of `time.Duration`;
* `NewRandom` is `uuid.NewRandom()` followed by `String()` on its first result;
* `Info ctx msg` is `appcontext.Logger(ctx).Info(msg)`;
* `DecodePing body` is `json.NewDecoder(body).Decode(&pingRequest)`;
* `RepoAddBorg` is `borg.RepoAddBorg`;
* `EncodeRepo` is the JSON text of `borg.BorgRepo` as `Encoder.Encode` builds it;
* `RequestWire r` is what `r.Write` hands to the writer, chunk by chunk. -/
structure Runtime (ε : Type) where
  Now : ε → Int × ε
  Since : Int → ε → Int × ε
  DurationString : Int → String
  NewRandom : ε → String × ε
  Info : Context → String → ε → ε
  DecodePing : String → Except String PingRequest
  RepoAddBorg : Context → Borg → ε → ε
  EncodeRepo : ε → Except String String
  RequestWire : http.Request → List Bytes

/-! ## The fragments of `fmt` and `encoding/json` the package uses -/

/-- An operand of a formatting call. -/
inductive Operand where
  | string (s : String)
  | int (i : Int)
  deriving DecidableEq, Repr

/-- The text of an operand under the verbs `%s`, `%d` and `%v` as the package
uses them: a string is printed as it is, an `int` in decimal. -/
def Operand.text : Operand → String
  | .string s => s
  | .int i => toString i

/-- Expand a format: every verb (`%` and the letter after it) is replaced by
the next operand, every other character is copied. -/
def Sprintf.expand : List Char → List Operand → List Char
  | [], _ => []
  | [c], _ => [c]
  | c :: d :: rest, args =>
    if c = '%' then
      match args with
      | a :: args2 => a.text.data ++ Sprintf.expand rest args2
      | [] => c :: Sprintf.expand (d :: rest) []
    else c :: Sprintf.expand (d :: rest) args

/-- The function `fmt.Sprintf`. -/
def Sprintf (format : String) (args : List Operand) : String :=
  String.mk (Sprintf.expand format.data args)

/-- The function `fmt.Fprintf(w, format, args...)`: one `Write` of the formatted text. -/
def Fprintf {σ : Type} (rw : http.ResponseWriter σ) (w : σ) (format : String)
    (args : List Operand) : σ × Int × GoError :=
  rw.Write w (bytesOf (Sprintf format args))

/-- A hexadecimal digit, lower case. -/
def hexDigit (n : Nat) : Char :=
  if n < 10 then Char.ofNat (48 + n) else Char.ofNat (87 + n)

/-- How `encoding/json` writes one character inside a string (HTML escaping
on, as `json.Marshal` has it; backspace and form feed get the short escapes
of Go 1.22 and later, where earlier releases wrote `\u0008` and `\u000c`). -/
def encodeChar (c : Char) : List Char :=
  if c = '"' then ['\\', '"']
  else if c = '\\' then ['\\', '\\']
  else if c.toNat = 8 then ['\\', 'b']
  else if c.toNat = 12 then ['\\', 'f']
  else if c = '\n' then ['\\', 'n']
  else if c = '\r' then ['\\', 'r']
  else if c = '\t' then ['\\', 't']
  else if c.toNat < 32 ∨ c = '<' ∨ c = '>' ∨ c = '&' then
    ['\\', 'u', '0', '0', hexDigit (c.toNat / 16), hexDigit (c.toNat % 16)]
  else if c.toNat = 8232 then ['\\', 'u', '2', '0', '2', '8']
  else if c.toNat = 8233 then ['\\', 'u', '2', '0', '2', '9']
  else [c]

/-- A JSON string literal. -/
def encodeString (s : String) : String :=
  String.mk ('"' :: (s.data.flatMap encodeChar ++ ['"']))

/-- What `respondJSON` is given as payload: a `Response` or a
`map[string]string` (its entries listed in key order, the order
`encoding/json` emits them in). -/
inductive Payload where
  | response (r : Response)
  | stringMap (entries : List (String × String))
  deriving DecidableEq, Repr

/-- The members of a JSON object, separated by commas. -/
def encodeMembers : List (String × String) → String
  | [] => ""
  | [kv] => encodeString kv.1 ++ ":" ++ encodeString kv.2
  | kv :: rest => encodeString kv.1 ++ ":" ++ encodeString kv.2 ++ "," ++ encodeMembers rest

/-- The function `json.Marshal` on the payloads of this package.  A struct is
written with one member per field, under the name of its tag, in field order;
strings never make it fail. -/
def Marshal : Payload → Except String String
  | .response r =>
    .ok ("\x7b" ++ encodeMembers [("borgid", r.BorgId), ("message", r.Message)] ++ "\x7d")
  | .stringMap entries => .ok ("\x7b" ++ encodeMembers entries ++ "\x7d")

/-! ## A reader of JSON texts, to say what a body denotes -/

/-- How a call of `ServeHTTP` ends: the response writer and the process state
it leaves behind, and the panic value when it did not return normally. -/
structure Result (σ ε : Type) where
  w : σ
  env : ε
  panicked : Option String

/-- An `http.Handler`: `ServeHTTP(w, r)` for a response writer of any
implementation, which the handler can use through its methods only. -/
def Handler (ε : Type) : Type 1 :=
  (σ : Type) → http.ResponseWriter σ → σ → http.Request → ε → Result σ ε

/-- The behaviour of an arbitrary handler on one request, as the tree of its
calls on the response writer: it returns or panics, or makes a call and goes
on; after a `Write` it goes on knowing the `(n, err)` that came back. -/
inductive Prog (ε : Type) where
  | Return (env : ε)
  | Panic (env : ε) (v : String)
  | HeaderSet (key value : String) (next : Prog ε)
  | WriteHeader (status : Int) (next : Prog ε)
  | Write (b : Bytes) (next : Int → GoError → Prog ε)

/-- Run a behaviour against a response writer. -/
def Prog.run {σ ε : Type} (rw : http.ResponseWriter σ) : Prog ε → σ → Result σ ε
  | .Return env, w => { w := w, env := env, panicked := none }
  | .Panic env v, w => { w := w, env := env, panicked := some v }
  | .HeaderSet k v next, w => next.run rw (rw.HeaderSet w k v)
  | .WriteHeader c next, w => next.run rw (rw.WriteHeader w c)
  | .Write b next, w =>
    let r := rw.Write w b
    (next r.2.1 r.2.2).run rw r.1

/-- One call that went through a response writer, with what came back: for a
`Write`, the count `n` and the error `err` the writer returned. -/
inductive Event where
  | HeaderSet (key value : String)
  | WriteHeader (status : Int)
  | Write (b : Bytes) (n : Int) (err : GoError)
  deriving DecidableEq, Repr

/-- The calls a behaviour makes when run against a response writer, in order,
each with the writer's reply. -/
def Prog.trace {σ ε : Type} (rw : http.ResponseWriter σ) : Prog ε → σ → List Event
  | .Return _, _ => []
  | .Panic _ _, _ => []
  | .HeaderSet k v next, w => Event.HeaderSet k v :: next.trace rw (rw.HeaderSet w k v)
  | .WriteHeader c next, w => Event.WriteHeader c :: next.trace rw (rw.WriteHeader w c)
  | .Write b next, w =>
    let r := rw.Write w b
    Event.Write b r.2.1 r.2.2 :: (next r.2.1 r.2.2).trace rw r.1

/-- The pair `(status, length)` after one more event, given the pair before
it: the bookkeeping of `statusWriter` with the sink left out. -/
def Event.record (rec : Int × Int) : Event → Int × Int
  | .HeaderSet _ _ => rec
  | .WriteHeader c => (c, rec.2)
  | .Write _ n _ => (if rec.1 = 0 then 200 else rec.1, wrapInt (rec.2 + n))

/-- The pair `(status, length)` determined by a sequence of events, starting
from the zero values. -/
def recorded (t : List Event) : Int × Int :=
  t.foldl Event.record (0, 0)

/-- An event that gives the recorded status a non-zero value: a `Write`, or a
`WriteHeader` with a non-zero code. -/
def Event.setsStatus : Event → Bool
  | .HeaderSet _ _ => false
  | .WriteHeader c => c != 0
  | .Write _ _ _ => true

/-- An event that touches the record at all: a `WriteHeader` or a `Write`. -/
def Event.touchesRecord : Event → Bool
  | .HeaderSet _ _ => false
  | .WriteHeader _ => true
  | .Write _ _ _ => true

/-- The handler whose behaviour on request `r` in process state `env` is
`p r env`. -/
def Prog.handler {ε : Type} (p : http.Request → ε → Prog ε) : Handler ε :=
  fun _ rw w r env => (p r env).run rw w

/-! ## middleware.go: the two middlewares -/

/-- `func LoggerMiddleware(name string, inner http.Handler) http.Handler`.
A panic of `inner` is not recovered: the statements after the call are
skipped. -/
def LoggerMiddleware {ε : Type} (rt : Runtime ε) (name : String) (inner : Handler ε) :
    Handler ε :=
  fun σ rw w r env =>
    let start := rt.Now env
    let sw := statusWriter.new w
    let res := inner (statusWriter σ) (statusWriter.methods rw) sw r start.2
    match res.panicked with
    | some v => { w := res.w.ResponseWriter, env := res.env, panicked := some v }
    | none =>
      let sw := res.w
      let elapsed := rt.Since start.1 res.env
      let logstr := Sprintf "HTTP Request %s\t%s\t%s\t%d\t%d\t%s"
        [.string name, .string r.Method, .string r.RequestURI, .int sw.status,
         .int sw.length, .string (rt.DurationString elapsed.1)]
      { w := sw.ResponseWriter, env := rt.Info r.ctx logstr elapsed.2, panicked := none }

/-! ## handlers.go -/

/-- `func respondJSON(w http.ResponseWriter, status int, payload interface{})`. -/
def respondJSON {σ : Type} (rw : http.ResponseWriter σ) (w : σ) (status : Int)
    (payload : Payload) : σ :=
  match Marshal payload with
  | .error err =>
    let w := rw.WriteHeader w 500
    (rw.Write w (bytesOf err)).1
  | .ok response =>
    let w := rw.HeaderSet w "Content-Type" "application/json"
    let w := rw.WriteHeader w status
    (rw.Write w (bytesOf response)).1

/-- `func getIndex(w http.ResponseWriter, r *http.Request)`. -/
def getIndex {ε : Type} : Handler ε :=
  fun _ rw w _ env =>
    let response : Response := { BorgId := "", Message := "Welcome!" }
    { w := respondJSON rw w 200 (.response response), env := env, panicked := none }

/-- `func getHeaders(w http.ResponseWriter, r *http.Request)`. -/
def getHeaders {ε : Type} : Handler ε :=
  fun _ rw w r env =>
    let w := r.Header.foldl (fun w nh =>
      nh.2.foldl (fun w h =>
        (Fprintf rw w "%v: %v\n" [.string nh.1, .string h]).1) w) w
    { w := w, env := env, panicked := none }

/-- The process state after a handler has served a list of requests one after
the other, each on a response writer of its own. -/
def serveAll {σ ε : Type} (h : Handler ε) (rw : http.ResponseWriter σ) :
    List (σ × http.Request) → ε → ε
  | [], env => env
  | wr :: rest, env => serveAll h rw rest (h σ rw wr.1 wr.2 env).env

/-! ## A concrete process state, to evaluate the model -/

/-- A process state: a clock, a counter behind the random source, the log
written so far and the registry. -/
structure World where
  clock : Int
  drawn : Nat
  log : List (Context × String)
  BorgRepo : List Borg
  deriving DecidableEq, Repr

/-- A decoder for bodies of the shape `borgid addr`, standing in for the JSON
decoder. -/
def World.decode (body : String) : Except String PingRequest :=
  match body.data.span (fun c => c != ' ') with
  | (a, _ :: b) => .ok { BorgId := String.mk a, Addr := String.mk b }
  | (_, []) => .error "unexpected end of input"

/-- The operations on `World`: every clock reading advances the clock by one,
the random source counts, `Info` appends to the log, `RepoAddBorg` appends to
the registry. -/
def World.runtime : Runtime World where
  Now := fun e => (e.clock, { e with clock := e.clock + 1 })
  Since := fun start e => (e.clock - start, { e with clock := e.clock + 1 })
  DurationString := fun d => toString d ++ "ns"
  NewRandom := fun e => ("rq-" ++ toString e.drawn, { e with drawn := e.drawn + 1 })
  Info := fun ctx msg e => { e with log := e.log ++ [(ctx, msg)] }
  DecodePing := World.decode
  RepoAddBorg := fun _ b e => { e with BorgRepo := e.BorgRepo ++ [b] }
  EncodeRepo := fun e =>
    .ok ("[" ++ String.intercalate "," (e.BorgRepo.map (fun b => encodeString b.BorgId)) ++ "]")
  RequestWire := fun r => [bytesOf (r.Method ++ " " ++ r.RequestURI), bytesOf r.Body]

/-- A process state at start-up. -/
def World.init : World := { clock := 0, drawn := 0, log := [], BorgRepo := [] }

/-! ## Properties of the response observer -/

/-- The observer forwards a call to the embedded writer and hands back what
the writer returned. -/
theorem statusWriter.call_forward {σ : Type} (rw : http.ResponseWriter σ)
    (w : statusWriter σ) (c : Call) :
    ((statusWriter.methods rw).call w c).1.ResponseWriter = (rw.call w.ResponseWriter c).1 ∧
    ((statusWriter.methods rw).call w c).2 = (rw.call w.ResponseWriter c).2 := by
  cases c with
  | HeaderSet k v => exact ⟨rfl, rfl⟩
  | WriteHeader st => exact ⟨rfl, rfl⟩
  | Write b =>
    constructor
    · simp only [http.ResponseWriter.call, statusWriter.methods, statusWriter.Write,
        statusWriter.Write_forward, statusWriter.Write_entry]
      split <;> rfl
    · simp only [http.ResponseWriter.call, statusWriter.methods, statusWriter.Write,
        statusWriter.Write_forward, statusWriter.Write_entry]
      split <;> rfl

/-- A sequence of calls through the observer leaves the embedded writer where
the same calls made directly leave it, with the same replies. -/
theorem statusWriter.calls_forward {σ : Type} (rw : http.ResponseWriter σ)
    (cs : List Call) (w : statusWriter σ) :
    ((statusWriter.methods rw).calls w cs).1.ResponseWriter = (rw.calls w.ResponseWriter cs).1 ∧
    ((statusWriter.methods rw).calls w cs).2 = (rw.calls w.ResponseWriter cs).2 := by
  induction cs generalizing w with
  | nil => exact ⟨rfl, rfl⟩
  | cons c cs ih =>
    obtain ⟨h1, h2⟩ := statusWriter.call_forward rw w c
    obtain ⟨i1, i2⟩ := ih ((statusWriter.methods rw).call w c).1
    simp only [http.ResponseWriter.calls]
    rw [i1, i2, h1, h2]
    exact ⟨rfl, rfl⟩

/-- The recording sink logs the calls it receives, in order. -/
theorem Recorder.calls_received (cs : List Call) (s : Recorder) :
    (Recorder.methods.calls s cs).1.received = s.received ++ cs := by
  induction cs generalizing s with
  | nil => simp [http.ResponseWriter.calls]
  | cons c cs ih =>
    simp only [http.ResponseWriter.calls]
    rw [ih]
    cases c with
    | HeaderSet k v => simp [http.ResponseWriter.call, Recorder.methods]
    | WriteHeader st => simp [http.ResponseWriter.call, Recorder.methods]
    | Write b =>
      simp only [http.ResponseWriter.call, Recorder.methods]
      split <;> simp

/-- Writes do not change a status that is not zero. -/
theorem statusWriter.writes_keep_status {σ : Type} (rw : http.ResponseWriter σ)
    (bs : List Bytes) (w : statusWriter σ) (h : w.status ≠ 0) :
    ((statusWriter.methods rw).calls w (bs.map Call.Write)).1.status = w.status := by
  induction bs generalizing w with
  | nil => rfl
  | cons b bs ih =>
    have hw : ((statusWriter.methods rw).call w (Call.Write b)).1.status = w.status := by
      simp [http.ResponseWriter.call, statusWriter.methods, statusWriter.Write,
        statusWriter.Write_forward, statusWriter.Write_entry, h]
    simp only [List.map, http.ResponseWriter.calls]
    rw [ih _ (by rw [hw]; exact h), hw]

/-- A value in the range of `int` is its own wrapped value. -/
theorem wrapInt_of_inRange (x : Int) (h1 : MinInt ≤ x) (h2 : x ≤ MaxInt) : wrapInt x = x := by
  unfold wrapInt
  unfold MinInt at h1
  unfold MaxInt at h2
  omega

/-- Wrapping an intermediate sum does not change the wrapped total. -/
theorem wrapInt_add (a b : Int) : wrapInt (wrapInt a + b) = wrapInt (a + b) := by
  unfold wrapInt
  omega

/-- The length one `Write` leaves behind. -/
theorem statusWriter.Write_length {σ : Type} (rw : http.ResponseWriter σ)
    (w : statusWriter σ) (b : Bytes) :
    (statusWriter.Write rw w b).1.length =
      wrapInt (w.length + (rw.Write w.ResponseWriter b).2.1) := by
  simp only [statusWriter.Write, statusWriter.Write_forward, statusWriter.Write_entry]
  split <;> rfl

/-- A sequence of writes adds the reported counts to the recorded length, in
`int` arithmetic. -/
theorem statusWriter.writes_length {σ : Type} (rw : http.ResponseWriter σ)
    (bs : List Bytes) (w : statusWriter σ) :
    wrapInt ((statusWriter.methods rw).calls w (bs.map Call.Write)).1.length =
      wrapInt (w.length + (counts (rw.calls w.ResponseWriter (bs.map Call.Write)).2).sum) := by
  induction bs generalizing w with
  | nil => simp [http.ResponseWriter.calls, counts]
  | cons b bs ih =>
    have hl : ((statusWriter.methods rw).call w (Call.Write b)).1.length =
        wrapInt (w.length + (rw.Write w.ResponseWriter b).2.1) :=
      statusWriter.Write_length rw w b
    have hs := (statusWriter.call_forward rw w (Call.Write b)).1
    simp only [List.map, http.ResponseWriter.calls]
    rw [ih, hl, hs, wrapInt_add]
    simp [http.ResponseWriter.call, counts, add_assoc]

/-- After at least one write the recorded length is a wrapped value. -/
theorem statusWriter.writes_length_wrapped {σ : Type} (rw : http.ResponseWriter σ)
    (bs : List Bytes) (w : statusWriter σ) (h : wrapInt w.length = w.length) :
    wrapInt ((statusWriter.methods rw).calls w (bs.map Call.Write)).1.length =
      ((statusWriter.methods rw).calls w (bs.map Call.Write)).1.length := by
  induction bs generalizing w with
  | nil => exact h
  | cons b bs ih =>
    simp only [List.map, http.ResponseWriter.calls]
    apply ih
    have hl : ((statusWriter.methods rw).call w (Call.Write b)).1.length =
        wrapInt (w.length + (rw.Write w.ResponseWriter b).2.1) :=
      statusWriter.Write_length rw w b
    rw [hl]
    unfold wrapInt
    omega

/-- C1, as stated, fails: after `WriteHeader(404)` and then `WriteHeader(500)`
on a fresh observer the recorded status is 500, not the first code 404. -/
theorem C1_first_write_does_not_win :
    (statusWriter.WriteHeader Recorder.methods
      (statusWriter.WriteHeader Recorder.methods (statusWriter.new ⟨[], []⟩) 404) 500).status
        = 500 ∧ (500 : Int) ≠ 404 := by
  decide

/-- C1, amended: status recording is last-write-wins.  For every observer and
all codes `a` and `b`, after `WriteHeader(a)` and then `WriteHeader(b)` the
recorded status is `b`, the recorded length is untouched, and the embedded
writer has received both calls, in that order. -/
theorem C1_last_write_wins {σ : Type} (rw : http.ResponseWriter σ) (w : statusWriter σ)
    (a b : Int) :
    (statusWriter.WriteHeader rw (statusWriter.WriteHeader rw w a) b).status = b ∧
    (statusWriter.WriteHeader rw (statusWriter.WriteHeader rw w a) b).length = w.length ∧
    (statusWriter.WriteHeader rw (statusWriter.WriteHeader rw w a) b).ResponseWriter =
      rw.WriteHeader (rw.WriteHeader w.ResponseWriter a) b :=
  ⟨rfl, rfl, rfl⟩

/-- C2: on a fresh observer, one `WriteHeader(c)` with `c ≠ 0` followed by any
number of `Write` calls leaves the recorded status equal to `c`; and any
non-empty sequence of `Write` calls without a `WriteHeader` leaves it equal to
200, a value the observer already holds when the first write is forwarded to
the embedded writer. -/
theorem C2_status_is_the_intended_code {σ : Type} (rw : http.ResponseWriter σ) (s : σ) :
    (∀ (c : Int) (bs : List Bytes), c ≠ 0 →
      ((statusWriter.methods rw).calls (statusWriter.new s)
        (Call.WriteHeader c :: bs.map Call.Write)).1.status = c) ∧
    (∀ (b : Bytes) (bs : List Bytes),
      ((statusWriter.methods rw).calls (statusWriter.new s)
        ((b :: bs).map Call.Write)).1.status = 200 ∧
      (statusWriter.Write_entry (statusWriter.new s)).status = 200 ∧
      statusWriter.Write rw (statusWriter.new s) b =
        statusWriter.Write_forward rw (statusWriter.Write_entry (statusWriter.new s)) b) := by
  constructor
  · intro c bs hc
    simp only [http.ResponseWriter.calls]
    rw [statusWriter.writes_keep_status rw bs _ hc]
    rfl
  · intro b bs
    refine ⟨?_, rfl, rfl⟩
    have h200 : ((statusWriter.methods rw).call (statusWriter.new s) (Call.Write b)).1.status
        = 200 := rfl
    simp only [List.map, http.ResponseWriter.calls]
    rw [statusWriter.writes_keep_status rw bs _ (by rw [h200]; decide), h200]

/-- C2 at a concrete input: `WriteHeader(404)` and two writes, on the
recording sink. -/
theorem C2_status_is_the_intended_code_witness :
    ((statusWriter.methods Recorder.methods).calls (statusWriter.new ⟨[], []⟩)
      (Call.WriteHeader 404 :: [[104, 105], [33]].map Call.Write)).1.status = 404 :=
  (C2_status_is_the_intended_code Recorder.methods ⟨[], []⟩).1 404 [[104, 105], [33]]
    (by decide)

/-- C3, as stated, fails: on a sink that reports `math.MaxInt64` bytes for
each of two writes, the second count is non-negative and yet the recorded
length drops from `MaxInt64` to `-2`, which is not the sum of the two
counts. -/
theorem C3_length_wraps_around :
    (statusWriter.Write Recorder.methods
      (statusWriter.new ⟨[], [(9223372036854775807, none), (9223372036854775807, none)]⟩)
      []).1.length = 9223372036854775807 ∧
    ((statusWriter.methods Recorder.methods).calls
      (statusWriter.new ⟨[], [(9223372036854775807, none), (9223372036854775807, none)]⟩)
      [Call.Write [], Call.Write []]).1.length = -2 ∧
    (counts (Recorder.methods.calls
      ⟨[], [(9223372036854775807, none), (9223372036854775807, none)]⟩
      [Call.Write [], Call.Write []]).2).sum = 18446744073709551614 := by
  decide

/-- C3, amended: after any sequence of `Write` calls on a fresh observer the
recorded length is the sum of the counts `n` the embedded writer returned for
those calls, reduced to the range of `int`; it is that sum itself whenever the
sum lies in the range of `int`, whatever the buffers were and whether or not
an error came with a count.  A `Write` for which the writer reports a
non-negative count does not decrease the recorded length as long as the
addition does not overflow. -/
theorem C3_length_is_the_sum_of_reported_counts {σ : Type} (rw : http.ResponseWriter σ) :
    (∀ (s : σ) (bs : List Bytes),
      ((statusWriter.methods rw).calls (statusWriter.new s) (bs.map Call.Write)).1.length =
        wrapInt (counts (rw.calls s (bs.map Call.Write)).2).sum) ∧
    (∀ (s : σ) (bs : List Bytes),
      MinInt ≤ (counts (rw.calls s (bs.map Call.Write)).2).sum →
      (counts (rw.calls s (bs.map Call.Write)).2).sum ≤ MaxInt →
      ((statusWriter.methods rw).calls (statusWriter.new s) (bs.map Call.Write)).1.length =
        (counts (rw.calls s (bs.map Call.Write)).2).sum) ∧
    (∀ (w : statusWriter σ) (b : Bytes), MinInt ≤ w.length →
      0 ≤ (rw.Write w.ResponseWriter b).2.1 →
      w.length + (rw.Write w.ResponseWriter b).2.1 ≤ MaxInt →
      w.length ≤ (statusWriter.Write rw w b).1.length ∧
      (statusWriter.Write rw w b).1.length = w.length + (rw.Write w.ResponseWriter b).2.1) := by
  have key : ∀ (s : σ) (bs : List Bytes),
      ((statusWriter.methods rw).calls (statusWriter.new s) (bs.map Call.Write)).1.length =
        wrapInt (counts (rw.calls s (bs.map Call.Write)).2).sum := by
    intro s bs
    have h := statusWriter.writes_length rw bs (statusWriter.new s)
    have h0 : wrapInt (statusWriter.new s).length = (statusWriter.new s).length := by
      show wrapInt 0 = 0
      decide
    rw [statusWriter.writes_length_wrapped rw bs (statusWriter.new s) h0] at h
    rw [h]
    simp [statusWriter.new]
  refine ⟨key, ?_, ?_⟩
  · intro s bs h1 h2
    rw [key, wrapInt_of_inRange _ h1 h2]
  · intro w b h0 hn hmax
    rw [statusWriter.Write_length, wrapInt_of_inRange _ (by omega) hmax]
    exact ⟨by omega, rfl⟩

/-- C3 at a concrete input: a sink that takes 2 of 3 bytes and reports an
error, then takes 1 byte of 1.  After both writes the recorded length is the
sum of the two reported counts, and the first write takes it from 0 to 2, not
to 3. -/
theorem C3_length_is_the_sum_of_reported_counts_witness :
    ((statusWriter.methods Recorder.methods).calls
      (statusWriter.new ⟨[], [(2, some "short write"), (1, none)]⟩)
      ([[1, 2, 3], [4]].map Call.Write)).1.length =
      (counts (Recorder.methods.calls ⟨[], [(2, some "short write"), (1, none)]⟩
        ([[1, 2, 3], [4]].map Call.Write)).2).sum ∧
    ((0 : Int) ≤ (statusWriter.Write Recorder.methods
      (statusWriter.new ⟨[], [(2, some "short write")]⟩) [1, 2, 3]).1.length ∧
    (statusWriter.Write Recorder.methods
      (statusWriter.new ⟨[], [(2, some "short write")]⟩) [1, 2, 3]).1.length = 0 + 2) :=
  ⟨(C3_length_is_the_sum_of_reported_counts Recorder.methods).2.1
      ⟨[], [(2, some "short write"), (1, none)]⟩ [[1, 2, 3], [4]] (by decide) (by decide),
    (C3_length_is_the_sum_of_reported_counts Recorder.methods).2.2
      (statusWriter.new ⟨[], [(2, some "short write")]⟩) [1, 2, 3] (by decide) (by decide)
      (by decide)⟩

/-- C4: for every sequence of calls made on an observer, the embedded writer
ends in the state the same calls made directly on it produce, and every call
returns through the observer what the writer returned for it, the `(n, err)`
of each `Write` included; on a sink that logs what it receives, the log is the
sequence of calls the handler made, same arguments, same order. -/
theorem C4_observer_is_transparent {σ : Type} (rw : http.ResponseWriter σ)
    (w : statusWriter σ) (cs : List Call) :
    ((statusWriter.methods rw).calls w cs).1.ResponseWriter = (rw.calls w.ResponseWriter cs).1 ∧
    ((statusWriter.methods rw).calls w cs).2 = (rw.calls w.ResponseWriter cs).2 ∧
    (∀ b : Bytes, (statusWriter.Write rw w b).2 = (rw.Write w.ResponseWriter b).2) ∧
    (∀ script : List (Int × GoError),
      ((statusWriter.methods Recorder.methods).calls
        (statusWriter.new ⟨[], script⟩) cs).1.ResponseWriter.received = cs) := by
  refine ⟨(statusWriter.calls_forward rw cs w).1, (statusWriter.calls_forward rw cs w).2, ?_, ?_⟩
  · intro b
    simp only [statusWriter.Write, statusWriter.Write_forward, statusWriter.Write_entry]
    split <;> rfl
  · intro script
    rw [(statusWriter.calls_forward Recorder.methods cs _).1, Recorder.calls_received]
    simp [statusWriter.new]

/-! ## Handlers running against the observer -/

/-- A behaviour run through the observer: the embedded writer, the process
state and the way the run ends are those of the run made directly on the
writer, the calls and replies are the same, and the record the observer ends
with is the one the events of the run determine. -/
theorem Prog.run_observed {σ ε : Type} (rw : http.ResponseWriter σ) (p : Prog ε)
    (sw : statusWriter σ) :
    (p.run (statusWriter.methods rw) sw).w.ResponseWriter = (p.run rw sw.ResponseWriter).w ∧
    (p.run (statusWriter.methods rw) sw).env = (p.run rw sw.ResponseWriter).env ∧
    (p.run (statusWriter.methods rw) sw).panicked = (p.run rw sw.ResponseWriter).panicked ∧
    p.trace (statusWriter.methods rw) sw = p.trace rw sw.ResponseWriter ∧
    ((p.run (statusWriter.methods rw) sw).w.status, (p.run (statusWriter.methods rw) sw).w.length) =
      (p.trace rw sw.ResponseWriter).foldl Event.record (sw.status, sw.length) := by
  induction p generalizing sw with
  | Return env => exact ⟨rfl, rfl, rfl, rfl, rfl⟩
  | Panic env v => exact ⟨rfl, rfl, rfl, rfl, rfl⟩
  | HeaderSet k v next ih =>
    obtain ⟨h1, h2, h3, h4, h5⟩ := ih (statusWriter.HeaderSet rw sw k v)
    exact ⟨h1, h2, h3, by simp only [Prog.trace]; exact congrArg _ h4, h5⟩
  | WriteHeader c next ih =>
    obtain ⟨h1, h2, h3, h4, h5⟩ := ih (statusWriter.WriteHeader rw sw c)
    exact ⟨h1, h2, h3, by simp only [Prog.trace]; exact congrArg _ h4, h5⟩
  | Write b next ih =>
    have hw : (statusWriter.Write rw sw b).1.ResponseWriter = (rw.Write sw.ResponseWriter b).1 := by
      simp only [statusWriter.Write, statusWriter.Write_forward, statusWriter.Write_entry]
      split <;> rfl
    have hr : (statusWriter.Write rw sw b).2 = (rw.Write sw.ResponseWriter b).2 := by
      simp only [statusWriter.Write, statusWriter.Write_forward, statusWriter.Write_entry]
      split <;> rfl
    have hs : (statusWriter.Write rw sw b).1.status = if sw.status = 0 then 200 else sw.status := by
      simp only [statusWriter.Write, statusWriter.Write_forward, statusWriter.Write_entry]
      split <;> rfl
    have hl : (statusWriter.Write rw sw b).1.length =
        wrapInt (sw.length + (rw.Write sw.ResponseWriter b).2.1) :=
      statusWriter.Write_length rw sw b
    obtain ⟨h1, h2, h3, h4, h5⟩ :=
      ih (statusWriter.Write rw sw b).2.1 (statusWriter.Write rw sw b).2.2
        (statusWriter.Write rw sw b).1
    rw [hw, hr] at h1 h2 h3 h4
    rw [hw, hr, hs, hl] at h5
    have e1 : (Prog.Write b next).run (statusWriter.methods rw) sw =
        (next (statusWriter.Write rw sw b).2.1 (statusWriter.Write rw sw b).2.2).run
          (statusWriter.methods rw) (statusWriter.Write rw sw b).1 := rfl
    have e2 : (Prog.Write b next).run rw sw.ResponseWriter =
        (next (rw.Write sw.ResponseWriter b).2.1 (rw.Write sw.ResponseWriter b).2.2).run rw
          (rw.Write sw.ResponseWriter b).1 := rfl
    have t1 : (Prog.Write b next).trace (statusWriter.methods rw) sw =
        Event.Write b (statusWriter.Write rw sw b).2.1 (statusWriter.Write rw sw b).2.2 ::
          (next (statusWriter.Write rw sw b).2.1 (statusWriter.Write rw sw b).2.2).trace
            (statusWriter.methods rw) (statusWriter.Write rw sw b).1 := rfl
    have t2 : (Prog.Write b next).trace rw sw.ResponseWriter =
        Event.Write b (rw.Write sw.ResponseWriter b).2.1 (rw.Write sw.ResponseWriter b).2.2 ::
          (next (rw.Write sw.ResponseWriter b).2.1 (rw.Write sw.ResponseWriter b).2.2).trace rw
            (rw.Write sw.ResponseWriter b).1 := rfl
    rw [e1, e2, t1, t2, hr]
    refine ⟨h1, h2, h3, congrArg _ h4, ?_⟩
    rw [h5]
    rfl

/-- The logging handler around a handler given by its behaviour: when the
behaviour returns, the writer and the process state are those of the
behaviour run directly on the writer, followed by one clock reading and one
log record carrying the record determined by the events of the run. -/
theorem LoggerMiddleware.of_prog {σ ε : Type} (rt : Runtime ε) (name : String)
    (p : http.Request → ε → Prog ε) (rw : http.ResponseWriter σ) (w : σ)
    (r : http.Request) (env : ε)
    (hret : ((p r (rt.Now env).2).run rw w).panicked = none) :
    LoggerMiddleware rt name (Prog.handler p) σ rw w r env =
      { w := ((p r (rt.Now env).2).run rw w).w,
        env := rt.Info r.ctx
          (Sprintf "HTTP Request %s\t%s\t%s\t%d\t%d\t%s"
            [.string name, .string r.Method, .string r.RequestURI,
             .int (recorded ((p r (rt.Now env).2).trace rw w)).1,
             .int (recorded ((p r (rt.Now env).2).trace rw w)).2,
             .string (rt.DurationString
               (rt.Since (rt.Now env).1 ((p r (rt.Now env).2).run rw w).env).1)])
          (rt.Since (rt.Now env).1 ((p r (rt.Now env).2).run rw w).env).2,
        panicked := none } := by
  obtain ⟨h1, h2, h3, _, h5⟩ := Prog.run_observed rw (p r (rt.Now env).2) (statusWriter.new w)
  have h5a := congrArg Prod.fst h5
  have h5b := congrArg Prod.snd h5
  simp only [statusWriter.new] at h1 h2 h3 h5a h5b
  rw [hret] at h3
  simp only [LoggerMiddleware, Prog.handler, statusWriter.new, h3, h1, h2, h5a, h5b, recorded]

/-- Splitting a list with a head: the marked element is the head, or it lies
in the tail. -/
theorem split_cons_iff (e : Event) (t : List Event) (P : Event → Prop)
    (Q : List Event → Prop) :
    (∃ pre x post, e :: t = pre ++ x :: post ∧ P x ∧ Q post) ↔
      (P e ∧ Q t) ∨ ∃ pre x post, t = pre ++ x :: post ∧ P x ∧ Q post := by
  constructor
  · rintro ⟨pre, x, post, h, hP, hQ⟩
    cases pre with
    | nil =>
      simp only [List.nil_append, List.cons.injEq] at h
      obtain ⟨rfl, rfl⟩ := h
      exact Or.inl ⟨hP, hQ⟩
    | cons a pre =>
      simp only [List.cons_append, List.cons.injEq] at h
      exact Or.inr ⟨pre, x, post, h.2, hP, hQ⟩
  · rintro (⟨hP, hQ⟩ | ⟨pre, x, post, h, hP, hQ⟩)
    · exact ⟨[], e, t, rfl, hP, hQ⟩
    · exact ⟨e :: pre, x, post, by rw [h]; rfl, hP, hQ⟩

/-- When the status determined by a sequence of events is not zero: the
status before was not zero and no `WriteHeader(0)` occurs, or some event sets
the status and no `WriteHeader(0)` comes after it. -/
theorem record_status_ne_zero_iff (t : List Event) (st len : Int) :
    (t.foldl Event.record (st, len)).1 ≠ 0 ↔
      (st ≠ 0 ∧ ∀ d ∈ t, d ≠ Event.WriteHeader 0) ∨
      ∃ pre x post, t = pre ++ x :: post ∧ x.setsStatus = true ∧
        ∀ d ∈ post, d ≠ Event.WriteHeader 0 := by
  induction t generalizing st len with
  | nil => simp
  | cons e t ih =>
    rw [List.foldl_cons, ih, split_cons_iff e t (fun x => x.setsStatus = true)
      (fun post => ∀ d ∈ post, d ≠ Event.WriteHeader 0)]
    cases e with
    | HeaderSet k v =>
      simp [Event.record, Event.setsStatus]
    | WriteHeader c =>
      simp only [Event.record, Event.setsStatus, List.mem_cons, forall_eq_or_imp, ne_eq,
        Event.WriteHeader.injEq, bne_iff_ne]
      tauto
    | Write b n err =>
      have h200 : (if st = 0 then (200 : Int) else st) ≠ 0 := by
        split
        · decide
        · assumption
      simp only [Event.record, Event.setsStatus, List.mem_cons, forall_eq_or_imp, ne_eq,
        not_false_eq_true, true_and, h200, reduceCtorEq]
      tauto

/-- Events that do not touch the record leave it as it was. -/
theorem record_untouched (t : List Event) (rec : Int × Int)
    (h : ∀ e ∈ t, e.touchesRecord = false) : t.foldl Event.record rec = rec := by
  induction t generalizing rec with
  | nil => rfl
  | cons e t ih =>
    have he := h e (List.mem_cons_self e t)
    rw [List.foldl_cons, ih _ (fun d hd => h d (List.mem_cons_of_mem e hd))]
    cases e with
    | HeaderSet k v => rfl
    | WriteHeader c => simp [Event.touchesRecord] at he
    | Write b n err => simp [Event.touchesRecord] at he

/-- The text `Sprintf` builds for the trace record: the six operands after
`HTTP Request `, separated by tabs. -/
theorem Sprintf_trace_record (name method uri : String) (status length : Int)
    (elapsed : String) :
    Sprintf "HTTP Request %s\t%s\t%s\t%d\t%d\t%s"
        [.string name, .string method, .string uri, .int status, .int length,
         .string elapsed] =
      "HTTP Request " ++ name ++ "\t" ++ method ++ "\t" ++ uri ++ "\t" ++ toString status
        ++ "\t" ++ toString length ++ "\t" ++ elapsed := by
  apply String.ext
  simp [Sprintf, Sprintf.expand, Operand.text]

/-- C6: on a request on which the inner handler returns normally, the handler
built by `LoggerMiddleware(name, inner)` calls `inner` once, on a fresh
observer around the response writer and with the request it was given, and
afterwards emits one log record through the logger of the request's context.
The text of the record is `HTTP Request ` followed by the route name, the
method, the request URI, the observer's status, the observer's length and the
elapsed duration, separated by tabs; status and length are the observer's
values after `inner` has returned.  The writer and the process state are
otherwise as `inner` left them. -/
theorem C6_logger_emits_one_record {σ ε : Type} (rt : Runtime ε) (name : String)
    (inner : Handler ε) (rw : http.ResponseWriter σ) (w : σ) (r : http.Request) (env : ε)
    (res : Result (statusWriter σ) ε)
    (hres : inner (statusWriter σ) (statusWriter.methods rw) (statusWriter.new w) r
      (rt.Now env).2 = res)
    (hret : res.panicked = none) :
    LoggerMiddleware rt name inner σ rw w r env =
      { w := res.w.ResponseWriter,
        env := rt.Info r.ctx
          ("HTTP Request " ++ name ++ "\t" ++ r.Method ++ "\t" ++ r.RequestURI ++ "\t" ++
            toString res.w.status ++ "\t" ++ toString res.w.length ++ "\t" ++
            rt.DurationString (rt.Since (rt.Now env).1 res.env).1)
          (rt.Since (rt.Now env).1 res.env).2,
        panicked := none } := by
  subst hres
  rw [← Sprintf_trace_record]
  simp only [LoggerMiddleware, hret]

/-- C6 at a concrete input: `getIndex` behind the logging handler, on the
recording sink; the log holds one record. -/
theorem C6_logger_emits_one_record_witness :
    (LoggerMiddleware World.runtime "Getndex" getIndex Recorder Recorder.methods ⟨[], []⟩
      { Method := "GET", RequestURI := "/", Header := [], Body := "",
        ctx := Context.Background } World.init).env.log =
      [(Context.Background, "HTTP Request Getndex\tGET\t/\t200\t34\t1ns")] := by
  rw [C6_logger_emits_one_record World.runtime "Getndex" getIndex Recorder.methods ⟨[], []⟩
    { Method := "GET", RequestURI := "/", Header := [], Body := "",
      ctx := Context.Background } World.init _ rfl rfl]
  decide

/-- C7: every call of the handler built by `LoggerMiddleware` starts from a
new observer with status 0 and length 0.  Whatever requests the same handler
served before, the status and the length in the trace record of a request are
the pair determined, from the zero values, by the calls the inner handler
makes on this request and the writer's replies to them. -/
theorem C7_record_is_per_request {σ ε : Type} (rt : Runtime ε) (name : String)
    (p : http.Request → ε → Prog ε) (rw : http.ResponseWriter σ)
    (earlier : List (σ × http.Request)) (env0 : ε) (w : σ) (r : http.Request)
    (hret : ((p r (rt.Now 
      (serveAll (LoggerMiddleware rt name (Prog.handler p)) rw earlier env0)).2).run rw w).panicked = none) :
    (statusWriter.new w).status = 0 ∧ (statusWriter.new w).length = 0 ∧
    LoggerMiddleware rt name (Prog.handler p) σ rw w r 
      (serveAll (LoggerMiddleware rt name (Prog.handler p)) rw earlier env0) =
      { w := ((p r (rt.Now 
      (serveAll (LoggerMiddleware rt name (Prog.handler p)) rw earlier env0)).2).run rw w).w,
        env := rt.Info r.ctx
          (Sprintf "HTTP Request %s\t%s\t%s\t%d\t%d\t%s"
            [.string name, .string r.Method, .string r.RequestURI,
             .int (recorded ((p r (rt.Now 
      (serveAll (LoggerMiddleware rt name (Prog.handler p)) rw earlier env0)).2).trace rw w)).1,
             .int (recorded ((p r (rt.Now 
      (serveAll (LoggerMiddleware rt name (Prog.handler p)) rw earlier env0)).2).trace rw w)).2,
             .string (rt.DurationString
               (rt.Since (rt.Now 
      (serveAll (LoggerMiddleware rt name (Prog.handler p)) rw earlier env0)).1 ((p r (rt.Now 
      (serveAll (LoggerMiddleware rt name (Prog.handler p)) rw earlier env0)).2).run rw w).env).1)])
          (rt.Since (rt.Now 
      (serveAll (LoggerMiddleware rt name (Prog.handler p)) rw earlier env0)).1 ((p r (rt.Now 
      (serveAll (LoggerMiddleware rt name (Prog.handler p)) rw earlier env0)).2).run rw w).env).2,
        panicked := none } :=
  ⟨rfl, rfl, LoggerMiddleware.of_prog rt name p rw w r _ hret⟩

/-- C7 at a concrete input: a handler answering 404 with two bytes serves a
second request after a first one; the second record again reads 404 and 2. -/
theorem C7_record_is_per_request_witness :
    (LoggerMiddleware World.runtime "x"
      (Prog.handler (fun _ e => Prog.WriteHeader 404 (Prog.Write [1, 2] (fun _ _ => Prog.Return e))))
      Recorder Recorder.methods ⟨[], []⟩
      { Method := "GET", RequestURI := "/b", Header := [], Body := "",
        ctx := Context.Background }
      (serveAll (LoggerMiddleware World.runtime "x"
        (Prog.handler (fun _ e => Prog.WriteHeader 404 (Prog.Write [1, 2] (fun _ _ => Prog.Return e)))))
        Recorder.methods
        [(⟨[], []⟩,
          { Method := "GET", RequestURI := "/a", Header := [], Body := "",
            ctx := Context.Background })]
        World.init)).env.log =
      [(Context.Background, "HTTP Request x\tGET\t/a\t404\t2\t1ns"),
       (Context.Background, "HTTP Request x\tGET\t/b\t404\t2\t1ns")] := by
  rw [(C7_record_is_per_request World.runtime "x"
    (fun _ e => Prog.WriteHeader 404 (Prog.Write [1, 2] (fun _ _ => Prog.Return e)))
    Recorder.methods
    [(⟨[], []⟩,
      { Method := "GET", RequestURI := "/a", Header := [], Body := "",
        ctx := Context.Background })]
    World.init ⟨[], []⟩
    { Method := "GET", RequestURI := "/b", Header := [], Body := "",
      ctx := Context.Background } rfl).2.2]
  decide

/-! ## Properties of the business handlers -/

/-- With a payload that marshals, `respondJSON` sets the content type, writes
the status and writes the JSON text, in this order. -/
theorem respondJSON_ok {σ : Type} (rw : http.ResponseWriter σ) (w : σ) (status : Int)
    (payload : Payload) (text : String) (h : Marshal payload = .ok text) :
    respondJSON rw w status payload =
      (rw.calls w [Call.HeaderSet "Content-Type" "application/json",
        Call.WriteHeader status, Call.Write (bytesOf text)]).1 := by
  simp only [respondJSON, h]
  rfl

/-- C9, as stated, fails: the body `getIndex` writes is the JSON object with
the two members `borgid` and `message`, which is not the object
`{"message":"Welcome!"}`. -/
theorem C9_body_has_a_borgid_member :
    (getIndex Recorder Recorder.methods ⟨[], []⟩
      { Method := "GET", RequestURI := "/", Header := [], Body := "",
        ctx := Context.Background } World.init).w.received =
      [Call.HeaderSet "Content-Type" "application/json", Call.WriteHeader 200,
        Call.Write (bytesOf "\x7b\"borgid\":\"\",\"message\":\"Welcome!\"\x7d")] ∧
    bytesOf "\x7b\"borgid\":\"\",\"message\":\"Welcome!\"\x7d" ≠ bytesOf "\x7b\"message\":\"Welcome!\"\x7d" := by
  decide

/-- C9, amended: for every request, `getIndex` sets the content type to
`application/json`, writes status 200 and writes the body
`{"borgid":"","message":"Welcome!"}`: the JSON object with an empty `borgid`
member and the `message` member.  It returns normally and leaves the process
state as it was. -/
theorem C9_getIndex_answers {σ ε : Type} (rw : http.ResponseWriter σ) (w : σ)
    (r : http.Request) (env : ε) :
    getIndex σ rw w r env =
      { w := (rw.calls w [Call.HeaderSet "Content-Type" "application/json",
          Call.WriteHeader 200,
          Call.Write (bytesOf "\x7b\"borgid\":\"\",\"message\":\"Welcome!\"\x7d")]).1,
        env := env, panicked := none } := by
  simp only [getIndex]
  rw [respondJSON_ok rw w 200 (.response { BorgId := "", Message := "Welcome!" })
    "\x7b\"borgid\":\"\",\"message\":\"Welcome!\"\x7d" rfl]

/-! ## The record of a handler that sets no status -/

/-- C10, as stated, fails in its second half: a handler that calls
`WriteHeader(404)` and then `WriteHeader(0)` has called `WriteHeader` with a
non-zero code, yet the observer's status is 0 when it returns, and the trace
record reports status 0. -/
theorem C10_nonzero_code_then_zero :
    Event.WriteHeader 404 ∈
      (Prog.WriteHeader 404 (Prog.WriteHeader 0 (Prog.Return World.init))).trace
        Recorder.methods ⟨[], []⟩ ∧
    ((Prog.WriteHeader 404 (Prog.WriteHeader 0 (Prog.Return World.init))).run
      (statusWriter.methods Recorder.methods) (statusWriter.new ⟨[], []⟩)).w.status = 0 ∧
    (LoggerMiddleware World.runtime "x"
      (Prog.handler (fun _ e => Prog.WriteHeader 404 (Prog.WriteHeader 0 (Prog.Return e))))
      Recorder Recorder.methods ⟨[], []⟩
      { Method := "GET", RequestURI := "/", Header := [], Body := "",
        ctx := Context.Background } World.init).env.log =
      [(Context.Background, "HTTP Request x\tGET\t/\t0\t0\t1ns")] := by
  decide

/-- C10, amended: if the inner handler returns normally without calling
`WriteHeader` or `Write` on the observer, the trace record reports status 0
and length 0, and so it does for `getHeaders` on a request without headers.
The observer's status is non-zero after a request if and only if the handler
made a `Write` call, or a `WriteHeader` call with a non-zero code, and did not
call `WriteHeader(0)` after it. -/
theorem C10_status_after_a_request {σ ε : Type} (rt : Runtime ε) (name : String)
    (p : http.Request → ε → Prog ε) (rw : http.ResponseWriter σ) (w : σ)
    (r : http.Request) (env : ε) :
    (((p r (rt.Now env).2).run rw w).panicked = none →
      (∀ e ∈ (p r (rt.Now env).2).trace rw w, e.touchesRecord = false) →
      LoggerMiddleware rt name (Prog.handler p) σ rw w r env =
        { w := ((p r (rt.Now env).2).run rw w).w,
          env := rt.Info r.ctx
            (Sprintf "HTTP Request %s\t%s\t%s\t%d\t%d\t%s"
              [.string name, .string r.Method, .string r.RequestURI, .int 0, .int 0,
               .string (rt.DurationString
                 (rt.Since (rt.Now env).1 ((p r (rt.Now env).2).run rw w).env).1)])
            (rt.Since (rt.Now env).1 ((p r (rt.Now env).2).run rw w).env).2,
          panicked := none }) ∧
    (r.Header = [] →
      LoggerMiddleware rt "GetHeaders" getHeaders σ rw w r env =
        { w := w,
          env := rt.Info r.ctx
            (Sprintf "HTTP Request %s\t%s\t%s\t%d\t%d\t%s"
              [.string "GetHeaders", .string r.Method, .string r.RequestURI, .int 0, .int 0,
               .string (rt.DurationString (rt.Since (rt.Now env).1 (rt.Now env).2).1)])
            (rt.Since (rt.Now env).1 (rt.Now env).2).2,
          panicked := none }) ∧
    (∀ prog : Prog ε,
      (prog.run (statusWriter.methods rw) (statusWriter.new w)).w.status ≠ 0 ↔
        ∃ pre x post, prog.trace rw w = pre ++ x :: post ∧ x.setsStatus = true ∧
          ∀ d ∈ post, d ≠ Event.WriteHeader 0) := by
  refine ⟨?_, ?_, ?_⟩
  · intro hret hnone
    rw [LoggerMiddleware.of_prog rt name p rw w r env hret, recorded,
      record_untouched _ _ hnone]
  · intro hh
    simp only [LoggerMiddleware, getHeaders, hh, List.foldl_nil, statusWriter.new]
  · intro prog
    have h5 := congrArg Prod.fst (Prog.run_observed rw prog (statusWriter.new w)).2.2.2.2
    simp only [statusWriter.new] at h5
    simp only [statusWriter.new]
    rw [h5, record_status_ne_zero_iff]
    simp

/-- C10 at a concrete input: a handler that only sets a header, and
`getHeaders` on a request without headers; both records read 0 and 0. -/
theorem C10_status_after_a_request_witness :
    (LoggerMiddleware World.runtime "x"
      (Prog.handler (fun _ e => Prog.HeaderSet "X-Empty" "yes" (Prog.Return e)))
      Recorder Recorder.methods ⟨[], []⟩
      { Method := "GET", RequestURI := "/", Header := [], Body := "",
        ctx := Context.Background } World.init).env.log =
      [(Context.Background, "HTTP Request x\tGET\t/\t0\t0\t1ns")] ∧
    (LoggerMiddleware World.runtime "GetHeaders" getHeaders
      Recorder Recorder.methods ⟨[], []⟩
      { Method := "GET", RequestURI := "/headers", Header := [], Body := "",
        ctx := Context.Background } World.init).env.log =
      [(Context.Background, "HTTP Request GetHeaders\tGET\t/headers\t0\t0\t1ns")] := by
  rw [(C10_status_after_a_request World.runtime "x"
      (fun _ e => Prog.HeaderSet "X-Empty" "yes" (Prog.Return e)) Recorder.methods ⟨[], []⟩
      { Method := "GET", RequestURI := "/", Header := [], Body := "",
        ctx := Context.Background } World.init).1 rfl (by decide),
    (C10_status_after_a_request World.runtime "x"
      (fun _ e => Prog.Return e) Recorder.methods ⟨[], []⟩
      { Method := "GET", RequestURI := "/headers", Header := [], Body := "",
        ctx := Context.Background } World.init).2.1 rfl]
  exact ⟨by decide, by decide⟩

end Server
